import Mathlib

set_option maxRecDepth 40000

/-!
Verification of `export_and_adapt.py` (gold-silver-analysis-v2).

The script's pure core is shallowly embedded here:
* the row-cleaning functions `clean_timestamp` and `clean_integer`,
* the per-column cleaning dispatch of the export loop,
* the type mapping `map_sqlite_to_postgres`,
* the schema-statement generation and import-script generation, and
* the `companies` move-to-front reordering of the table list.

Python runtime values reaching the cleaners (sqlite3 delivers `None`,
`str`, `int`, `float`) are modelled by `PyVal`; Python exceptions that the
cleaners can raise or catch are modelled by `PyExc`; Python `float` is
modelled by `PFloat`, keeping finite values as exact scaled decimals
`m * 10^e` (the IEEE-754 rounding of in-range finite values is abstracted
away; magnitudes at or above 2^1024 overflow to the infinities, exactly as
Python's `float(str)` turns `"1e400"` into `inf`).
-/

/-- Python `float` values: finite scaled decimals `m * 10^e`, the two
infinities, and NaN. -/
inductive PFloat where
  | finite (m : Int) (e : Int) : PFloat
  | pinf : PFloat
  | ninf : PFloat
  | nan : PFloat
deriving DecidableEq

/-- Python values that reach the cleaning functions. -/
inductive PyVal where
  | vnone : PyVal
  | vstr (s : String) : PyVal
  | vint (n : Int) : PyVal
  | vfloat (f : PFloat) : PyVal
deriving DecidableEq

/-- Python exceptions relevant to `clean_integer` / `clean_timestamp`:
`ValueError`, `TypeError` (both caught by the cleaners) and
`OverflowError` (not caught). -/
inductive PyExc where
  | valueError : PyExc
  | typeError : PyExc
  | overflowError : PyExc
deriving DecidableEq

deriving instance DecidableEq for Except

/-- ASCII digit test used by the numeric and timestamp grammars. -/
def isDig (c : Char) : Bool := 48 ≤ c.toNat && c.toNat ≤ 57

/-- Numeric value of an ASCII digit character. -/
def dVal (c : Char) : Nat := c.toNat - 48

/-- Value of a big-endian ASCII digit list. -/
def valOfDigits (ds : List Char) : Nat := ds.foldl (fun a c => 10 * a + dVal c) 0

/-- Exponent tail of a Python float literal: empty, or `e`/`E`, an optional
sign, and a nonempty digit run consuming the rest of the input. -/
def parseExpTail (cs : List Char) : Option Int :=
  match cs with
  | [] => some 0
  | c :: r =>
    if c = 'e' ∨ c = 'E' then
      match r with
      | '+' :: r2 =>
        let ds := r2.takeWhile isDig
        if ds ≠ [] ∧ r2.dropWhile isDig = [] then some (valOfDigits ds) else none
      | '-' :: r2 =>
        let ds := r2.takeWhile isDig
        if ds ≠ [] ∧ r2.dropWhile isDig = [] then some (-(valOfDigits ds : Int)) else none
      | _ =>
        let ds := r.takeWhile isDig
        if ds ≠ [] ∧ r.dropWhile isDig = [] then some (valOfDigits ds) else none
    else none

/-- Digits of an unsigned Python float literal, `D+ [. D*] | . D+`,
followed by an exponent tail; the result `(m, e)` denotes `m * 10^e`.
(Modelled subset of `float(str)`: no underscores, no `inf`/`nan` names,
no surrounding whitespace.) -/
def parseFloatBody (cs : List Char) : Option (Int × Int) :=
  let ip := cs.takeWhile isDig
  let r1 := cs.dropWhile isDig
  match r1 with
  | '.' :: r2 =>
    let fp := r2.takeWhile isDig
    let r3 := r2.dropWhile isDig
    if ip = [] ∧ fp = [] then none
    else
      match parseExpTail r3 with
      | some e =>
        some ((valOfDigits ip * 10 ^ fp.length + valOfDigits fp : Nat), e - fp.length)
      | none => none
  | _ =>
    if ip = [] then none
    else
      match parseExpTail r1 with
      | some e => some ((valOfDigits ip : Nat), e)
      | none => none

/-- Signed Python float literal, value `m * 10^e`. -/
def parsePyFloat (cs : List Char) : Option (Int × Int) :=
  match cs with
  | '+' :: r => parseFloatBody r
  | '-' :: r => (parseFloatBody r).map (fun p => (-p.1, p.2))
  | _ => parseFloatBody cs

/-- Whether `|m * 10^e| >= 2^1024`, i.e. the parsed decimal overflows the
double range (threshold abstracted to 2^1024). -/
def decOverflows (m e : Int) : Bool :=
  if 0 ≤ e then 2 ^ 1024 ≤ m.natAbs * 10 ^ e.toNat
  else 2 ^ 1024 * 10 ^ e.natAbs ≤ m.natAbs

/-- Overflow behaviour of Python's string-to-float conversion: magnitudes
at or above 2^1024 become the infinities (`float("1e400")` is `inf`);
smaller magnitudes stay finite. -/
def pfloatOfDec (m e : Int) : PFloat :=
  if decOverflows m e then (if 0 ≤ m then .pinf else .ninf) else .finite m e

/-- Python's `float(value)` builtin on the modelled value space:
`float(None)` raises `TypeError`; `float` of an unparsable string raises
`ValueError`; an int at or above 2^1024 in magnitude raises
`OverflowError`. -/
def pyFloatFn (v : PyVal) : Except PyExc PFloat :=
  match v with
  | .vnone => .error .typeError
  | .vstr s =>
    match parsePyFloat s.data with
    | some p => .ok (pfloatOfDec p.1 p.2)
    | none => .error .valueError
  | .vint n =>
    if 2 ^ 1024 ≤ n.natAbs then .error .overflowError else .ok (.finite n 0)
  | .vfloat f => .ok f

/-- Integer division of `m` by `10^k` truncating toward zero, as Python's
`int()` does on floats. -/
def truncDiv10 (m : Int) (k : Nat) : Int :=
  if 0 ≤ m then (m.toNat / 10 ^ k : Nat) else -((-m).toNat / 10 ^ k : Nat)

/-- Python's `int(float)`: truncation toward zero on finite values;
`OverflowError` on the infinities, `ValueError` on NaN. -/
def pyIntOfFloat (f : PFloat) : Except PyExc Int :=
  match f with
  | .finite m e => .ok (if 0 ≤ e then m * 10 ^ e.toNat else truncDiv10 m e.natAbs)
  | .pinf => .error .overflowError
  | .ninf => .error .overflowError
  | .nan => .error .valueError

/-- Function `clean_integer` from `export_and_adapt.py`:
a `None` input is returned as-is; otherwise `val = int(float(value))` is
computed inside `try: ... except (ValueError, TypeError): return None`,
and `val` is returned when `-2**63 <= val <= 2**63 - 1`, else `None`.
`OverflowError` is not caught by that `except` clause and propagates. -/
def clean_integer (value : PyVal) : Except PyExc PyVal :=
  match value with
  | .vnone => .ok .vnone
  | v =>
    match (pyFloatFn v).bind pyIntOfFloat with
    | .ok val =>
      .ok (if -(2 ^ (63 : Nat)) ≤ val ∧ val ≤ 2 ^ (63 : Nat) - 1 then .vint val else .vnone)
    | .error .valueError => .ok .vnone
    | .error .typeError => .ok .vnone
    | .error e => .error e

/-! ### Timestamp cleaning

`clean_timestamp` preprocesses with `value.replace('Z', '+00:00').replace(' ', 'T')`
and parses with `datetime.fromisoformat` (CPython >= 3.11 semantics),
then reformats with `strftime('%Y-%m-%d %H:%M:%S%z')`.

The `fromisoformat` grammar is modelled on the extended ISO forms
`YYYY-MM-DD[*HH[:MM[:SS[.F+]]][offset]]` where `*` is any single
separator character and the offset is `Z`/`z` or a sign followed by
`HH`, `HHMM` or `HH:MM` (a faithful subset: basic-format dates/times and
offsets with seconds are not modelled). Offsets are stored in minutes. -/

/-- A parsed Python `datetime`: calendar fields, microseconds, and an
optional UTC offset in minutes. -/
structure PyDT where
  year : Nat
  month : Nat
  day : Nat
  hour : Nat
  minute : Nat
  second : Nat
  micro : Nat
  off : Option Int
deriving DecidableEq

/-- Python's `str.replace(p, r)` for a single-character pattern `p`:
every occurrence of `p` is replaced by `r`. -/
def replaceChar (p : Char) (r : List Char) : List Char → List Char
  | [] => []
  | c :: cs => (if c = p then r else [c]) ++ replaceChar p r cs

/-- The preprocessing `value.replace('Z', '+00:00').replace(' ', 'T')`
performed by `clean_timestamp` before parsing. -/
def preproc (cs : List Char) : List Char :=
  replaceChar ' ' ['T'] (replaceChar 'Z' ['+', '0', '0', ':', '0', '0'] cs)

/-- Two ASCII digits. -/
def parse2 : List Char → Option (Nat × List Char)
  | a :: b :: r =>
    if isDig a && isDig b then some (10 * dVal a + dVal b, r) else none
  | _ => none

/-- Four ASCII digits. -/
def parse4 : List Char → Option (Nat × List Char)
  | a :: b :: c :: d :: r =>
    if isDig a && isDig b && isDig c && isDig d then
      some (1000 * dVal a + 100 * dVal b + 10 * dVal c + dVal d, r)
    else none
  | _ => none

/-- Gregorian leap-year rule, as in Python's `datetime`. -/
def isLeap (y : Nat) : Bool := (y % 4 = 0 && y % 100 ≠ 0) || y % 400 = 0

/-- Days in a month, as validated by Python's `datetime` constructor. -/
def daysInMonth (y m : Nat) : Nat :=
  if m = 2 then (if isLeap y then 29 else 28)
  else if m = 4 ∨ m = 6 ∨ m = 9 ∨ m = 11 then 30
  else 31

/-- One expected literal character. -/
def expectC (c : Char) : List Char → Option (List Char)
  | d :: r => if d = c then some r else none
  | [] => none

/-- Numeric part of a timezone offset, consuming all remaining input:
`HH`, `HH:MM` or `HHMM`, range-checked; result in minutes. -/
def parseOffHM (cs : List Char) : Option Nat :=
  match parse2 cs with
  | some (oh, rest) =>
    if rest = [] then (if oh ≤ 23 then some (60 * oh) else none)
    else
      match expectC ':' rest with
      | some r2 =>
        match parse2 r2 with
        | some (om, r3) =>
          if r3 = [] ∧ oh ≤ 23 ∧ om ≤ 59 then some (60 * oh + om) else none
        | none => none
      | none =>
        match parse2 rest with
        | some (om, r3) =>
          if r3 = [] ∧ oh ≤ 23 ∧ om ≤ 59 then some (60 * oh + om) else none
        | none => none
  | none => none

/-- Timezone tail after the time fields: nothing (naive), `Z`/`z`, or a
sign and `parseOffHM`; result is the offset in minutes, if any. -/
def parseOffTail (cs : List Char) : Option (Option Int) :=
  if cs = [] then some none
  else if cs = ['Z'] ∨ cs = ['z'] then some (some 0)
  else
    match cs with
    | c :: r =>
      if c = '+' then (parseOffHM r).map (fun m : Nat => some ((m : Int)))
      else if c = '-' then (parseOffHM r).map (fun m : Nat => some (-(m : Int)))
      else none
    | [] => none

/-- Range checks performed by the `datetime` constructor on time fields. -/
def timeGuard (h mi s mc : Nat) (off : Option Int) :
    Option (Nat × Nat × Nat × Nat × Option Int) :=
  if h ≤ 23 ∧ mi ≤ 59 ∧ s ≤ 59 then some (h, mi, s, mc, off) else none

/-- Time-of-day and offset tail: `HH[:MM[:SS[.F+]]][offset]`, consuming
all remaining input. Fractions are truncated to microseconds. -/
def parseTimeTail (cs : List Char) : Option (Nat × Nat × Nat × Nat × Option Int) :=
  match parse2 cs with
  | none => none
  | some (h, r1) =>
    match expectC ':' r1 with
    | some r2 =>
      match parse2 r2 with
      | none => none
      | some (mi, r3) =>
        match expectC ':' r3 with
        | some r4 =>
          match parse2 r4 with
          | none => none
          | some (s, r5) =>
            match expectC '.' r5 with
            | some r6 =>
              if r6.takeWhile isDig = [] then none
              else
                match parseOffTail (r6.dropWhile isDig) with
                | some off =>
                  timeGuard h mi s
                    (valOfDigits ((r6.takeWhile isDig).take 6) *
                      10 ^ (6 - ((r6.takeWhile isDig).take 6).length)) off
                | none => none
            | none =>
              match parseOffTail r5 with
              | some off => timeGuard h mi s 0 off
              | none => none
        | none =>
          match parseOffTail r3 with
          | some off => timeGuard h mi 0 0 off
          | none => none
    | none =>
      match parseOffTail r1 with
      | some off => timeGuard h 0 0 0 off
      | none => none

/-- Model of `datetime.fromisoformat` on the modelled grammar: a four-digit
extended-format date, optionally followed by one separator character and
a time-of-day with optional offset; parse failure (Python: `ValueError`)
is `none`. -/
def fromisoChars (cs : List Char) : Option PyDT :=
  match parse4 cs with
  | none => none
  | some (y, r1) =>
    match expectC '-' r1 with
    | none => none
    | some r2 =>
      match parse2 r2 with
      | none => none
      | some (mo, r3) =>
        match expectC '-' r3 with
        | none => none
        | some r4 =>
          match parse2 r4 with
          | none => none
          | some (d, r5) =>
            if 1 ≤ y ∧ 1 ≤ mo ∧ mo ≤ 12 ∧ 1 ≤ d ∧ d ≤ daysInMonth y mo then
              if r5 = [] then some ⟨y, mo, d, 0, 0, 0, 0, none⟩
              else
                match parseTimeTail r5.tail with
                | some (h, mi, s, mc, off) => some ⟨y, mo, d, h, mi, s, mc, off⟩
                | none => none
            else none

/-- ASCII digit character for `n % 10`. -/
def digitCh (n : Nat) : Char := Char.ofNat (48 + n % 10)

/-- Two-digit zero-padded field of `strftime` (`%m`, `%d`, `%H`, `%M`, `%S`). -/
def pad2 (n : Nat) : List Char := [digitCh (n / 10), digitCh n]

/-- Four-digit zero-padded field of `strftime` (`%Y`, for in-range years). -/
def pad4 (n : Nat) : List Char :=
  [digitCh (n / 1000), digitCh (n / 100), digitCh (n / 10), digitCh n]

/-- Field `strftime` `%z`: empty for a naive datetime, else sign and `HHMM`. -/
def offChars : Option Int → List Char
  | none => []
  | some k => (if k < 0 then '-' else '+') :: (pad2 (k.natAbs / 60) ++ pad2 (k.natAbs % 60))

/-- Format `strftime('%Y-%m-%d %H:%M:%S%z')`, the canonical output format of
`clean_timestamp`. -/
def fmtChars (d : PyDT) : List Char :=
  pad4 d.year ++ '-' :: pad2 d.month ++ '-' :: pad2 d.day ++ ' ' ::
    pad2 d.hour ++ ':' :: pad2 d.minute ++ ':' :: pad2 d.second ++ offChars d.off

/-- Function `clean_timestamp` from `export_and_adapt.py`: a truthy `str` input is
preprocessed, parsed and reformatted, with a parse failure (`ValueError`,
caught by the `except` clause) replaced by `None`; any other input —
`None`, the empty string, or a non-string — is returned unchanged. -/
def clean_timestamp (value : PyVal) : Except PyExc PyVal :=
  match value with
  | .vstr s =>
    if s.data = [] then .ok (.vstr s)
    else
      match fromisoChars (preproc s.data) with
      | some dt => .ok (.vstr (String.mk (fmtChars dt)))
      | none => .ok .vnone
  | v => .ok v

/-! ### Per-column cleaning dispatch -/

/-- Whether `p` is a prefix of `l` (character lists). -/
def startsWithL : List Char → List Char → Bool
  | [], _ => true
  | _ :: _, [] => false
  | c :: p, d :: l => c = d && startsWithL p l

/-- Python's `p in s` substring test on character lists. -/
def containsL : List Char → List Char → Bool
  | hay, pat =>
    if startsWithL pat hay then true
    else
      match hay with
      | [] => false
      | _ :: t => containsL t pat

/-- Python's `s.endswith(p)` on character lists. -/
def endsWithL (hay pat : List Char) : Bool := startsWithL pat.reverse hay.reverse

/-- The per-column cleaning dispatch of the export loop: a column whose
name ends with `_updated` or `_date` is cleaned by `clean_timestamp`;
otherwise a column whose name contains `shares` or `id` is cleaned by
`clean_integer`; all other values pass through unchanged. -/
def cleanCell (colName : String) (value : PyVal) : Except PyExc PyVal :=
  if endsWithL colName.data "_updated".data || endsWithL colName.data "_date".data then
    clean_timestamp value
  else if containsL colName.data "shares".data || containsL colName.data "id".data then
    clean_integer value
  else .ok value

/-- The date half of the canonical format. -/
def datePartChars (dt : PyDT) : List Char :=
  pad4 dt.year ++ '-' :: pad2 dt.month ++ '-' :: pad2 dt.day

/-- The time half of the canonical format. -/
def timePartChars (dt : PyDT) : List Char :=
  pad2 dt.hour ++ ':' :: pad2 dt.minute ++ ':' :: pad2 dt.second ++ offChars dt.off

/-- The field ranges that `fromisoChars` guarantees — exactly the checks
Python's `datetime` constructor enforces on the modelled fields. -/
def ValidDT (dt : PyDT) : Prop :=
  1 ≤ dt.year ∧ dt.year ≤ 9999 ∧ 1 ≤ dt.month ∧ dt.month ≤ 12 ∧ 1 ≤ dt.day ∧
  dt.day ≤ daysInMonth dt.year dt.month ∧ dt.hour ≤ 23 ∧ dt.minute ≤ 59 ∧
  dt.second ≤ 59 ∧ ∀ k, dt.off = some k → k.natAbs ≤ 1439

/-! ### Catalog model, type mapping, schema and import-script generation

A column record mirrors the `PRAGMA table_info` row used by the script:
`col[1]` name, `col[2]` declared type, `col[3]` notnull flag, `col[4]`
default literal, `col[5]` primary-key ordinal (0 when the column is not
part of the primary key, else its 1-based position within the key, as
SQLite reports it). Truthiness of `col[3]`/`col[5]` in the Python code is
modelled as `≠ 0`. -/

/-- One `PRAGMA table_info` row. -/
structure Column where
  name : String
  ctype : String
  notnull : Nat
  dflt : Option String
  pk : Nat
deriving DecidableEq

/-- A table name with its column metadata. -/
structure TableData where
  name : String
  columns : List Column
deriving DecidableEq

/-- Python's `str.upper()` on one character (ASCII range; declared SQLite
type tokens are ASCII). -/
def upperChar (c : Char) : Char :=
  if 'a' ≤ c ∧ c ≤ 'z' then Char.ofNat (c.toNat - 32) else c

/-- Python's `str.upper()`. -/
def strUpper (s : String) : String := String.mk (s.data.map upperChar)

/-- Function `map_sqlite_to_postgres` from the script: a dictionary lookup on the
upper-cased declared type, with `'TEXT'` as the `.get` default; the
`INTEGER` entry is `'BIGSERIAL' if is_pk else 'BIGINT'`, where `is_pk`
receives the (truthy) pk ordinal `col[5]`. -/
def map_sqlite_to_postgres (sqliteType : String) (isPk : Nat) : String :=
  if strUpper sqliteType = "INTEGER" then (if isPk ≠ 0 then "BIGSERIAL" else "BIGINT")
  else if strUpper sqliteType = "TEXT" then "TEXT"
  else if strUpper sqliteType = "REAL" then "DOUBLE PRECISION"
  else if strUpper sqliteType = "DATETIME" then "TIMESTAMP WITH TIME ZONE"
  else "TEXT"

/-- Model of `pk_columns = [col[1] for col in columns if col[5] == 1]`. -/
def pkColumns (t : TableData) : List String :=
  (t.columns.filter (fun c => c.pk == 1)).map (fun c => c.name)

/-- One column line of the generated `CREATE TABLE` statement. -/
def buildColLine (c : Column) : String :=
  "    " ++ (c.name ++ (" " ++ (map_sqlite_to_postgres c.ctype c.pk ++
    ((if c.notnull ≠ 0 ∧ c.pk = 0 then " NOT NULL" else "") ++
     ((match c.dflt with
       | some d => if c.pk = 0 then " DEFAULT " ++ d else ""
       | none => "") ++ ",")))))

/-- Python's `str.rstrip(',')`: drop every trailing comma. -/
def rstripCommas (s : String) : String :=
  String.mk (s.data.reverse.dropWhile (fun c => c = ',')).reverse

/-- Replace the last element of a list, as `table_sql[-1] = ...` does. -/
def modifyLast (f : String → String) : List String → List String
  | [] => []
  | [x] => [f x]
  | x :: y :: t => x :: modifyLast f (y :: t)

/-- The named composite primary-key constraint line. -/
def pkConstraintLine (t : TableData) : String :=
  "    CONSTRAINT " ++ (t.name ++ ("_pkey PRIMARY KEY (" ++
    (String.intercalate ", " (pkColumns t) ++ ")")))

/-- The lines of one generated table-definition statement: header, column
lines, then either the constraint line (when `pk_columns` is nonempty) or
a comma-stripped last line, and the closing `);`. -/
def buildTableLines (t : TableData) : List String :=
  (if pkColumns t ≠ [] then
    ("CREATE TABLE IF NOT EXISTS " ++ (t.name ++ " (")) ::
      t.columns.map buildColLine ++ [pkConstraintLine t]
  else
    modifyLast rstripCommas
      (("CREATE TABLE IF NOT EXISTS " ++ (t.name ++ " (")) ::
        t.columns.map buildColLine)) ++ [");"]

/-- The table-definition statement, `"\n".join(table_sql)`. -/
def buildTableSQL (t : TableData) : String :=
  String.intercalate "\n" (buildTableLines t)

/-- Model of `os.path.join(OUTPUT_DIR, f"{table}.csv")` on a POSIX system. -/
def csvPathOf (outDir tname : String) : String := outDir ++ ("/" ++ (tname ++ ".csv"))

/-- Statement `CREATE TABLE IF NOT EXISTS staging_{table} (LIKE {table});`. -/
def createStagingStmt (tname : String) : String :=
  "CREATE TABLE IF NOT EXISTS staging_" ++ (tname ++ (" (LIKE " ++ (tname ++ ");")))

/-- Statement `TRUNCATE staging_{table};`. -/
def truncateStmt (tname : String) : String := "TRUNCATE staging_" ++ (tname ++ ";")

/-- Statement `\COPY staging_{table} FROM '{csv_path}' WITH (FORMAT csv, HEADER true, NULL '');`. -/
def copyStmt (tname csvPath : String) : String :=
  "\\COPY staging_" ++ (tname ++ (" FROM \x27" ++ (csvPath ++
    "\x27 WITH (FORMAT csv, HEADER true, NULL \x27\x27);")))

/-- The referential-pruning statement, a triple-quoted f-string whose text
(including its indentation) is reproduced verbatim. -/
def deleteOrphansStmt (tname : String) : String :=
  "\n            DELETE FROM staging_" ++ (tname ++
    "\n            WHERE company_id IS NOT NULL\n            AND company_id NOT IN (SELECT company_id FROM companies);\n            ")

/-- Whether some column is named `company_id`. -/
def hasCompanyId (t : TableData) : Bool :=
  t.columns.any (fun c => c.name == "company_id")

/-- The upsert statement (triple-quoted f-string, verbatim). -/
def upsertStmt (t : TableData) : String :=
  "\n        INSERT INTO " ++ (t.name ++ ("\n        SELECT * FROM staging_" ++
    (t.name ++ ("\n        ON CONFLICT (" ++
      (String.intercalate ", " (pkColumns t) ++ (") DO UPDATE SET\n        " ++
        (String.intercalate ", "
          ((t.columns.filter (fun c => !((pkColumns t).contains c.name))).map
            (fun c => c.name ++ (" = EXCLUDED." ++ c.name))) ++ ";\n        ")))))))

/-- Statement `INSERT INTO {table} SELECT * FROM staging_{table};`. -/
def plainInsertStmt (tname : String) : String :=
  "INSERT INTO " ++ (tname ++ (" SELECT * FROM staging_" ++ (tname ++ ";")))

/-- Statement `DROP TABLE staging_{table};`. -/
def dropStagingStmt (tname : String) : String :=
  "DROP TABLE staging_" ++ (tname ++ ";")

/-- The statements appended to `import_sql` for one table. -/
def buildImportBlock (t : TableData) (csvPath : String) : List String :=
  [createStagingStmt t.name, truncateStmt t.name, copyStmt t.name csvPath] ++
  ((if pkColumns t ≠ [] then
      (if t.name ≠ "companies" ∧ hasCompanyId t then [deleteOrphansStmt t.name] else []) ++
        [upsertStmt t]
    else [plainInsertStmt t.name]) ++
  [dropStagingStmt t.name])

/-- The move-to-front reordering: `tables.remove('companies')` then
`tables.insert(0, 'companies')`, lifted from the name list to the table
records (table names are unique in `sqlite_master`). -/
def reorderTablesData (ts : List TableData) : List TableData :=
  match ts.find? (fun t => t.name == "companies") with
  | some c => c :: ts.eraseP (fun t => t.name == "companies")
  | none => ts

/-- The per-table definition statements, in emission order. -/
def schemaStatements (ts : List TableData) : List String :=
  (reorderTablesData ts).map buildTableSQL

/-- The eight fixed foreign-key constraint writes at the end of the
schema file. -/
def fkConstraintLines : String :=
  "ALTER TABLE financials ADD CONSTRAINT fk_company_id FOREIGN KEY (company_id) REFERENCES companies(company_id) ON DELETE SET NULL;\n" ++
  "ALTER TABLE capital_structure ADD CONSTRAINT fk_company_id FOREIGN KEY (company_id) REFERENCES companies(company_id) ON DELETE SET NULL;\n" ++
  "ALTER TABLE mineral_estimates ADD CONSTRAINT fk_company_id FOREIGN KEY (company_id) REFERENCES companies(company_id) ON DELETE SET NULL;\n" ++
  "ALTER TABLE production ADD CONSTRAINT fk_company_id FOREIGN KEY (company_id) REFERENCES companies(company_id) ON DELETE SET NULL;\n" ++
  "ALTER TABLE costs ADD CONSTRAINT fk_company_id FOREIGN KEY (company_id) REFERENCES companies(company_id) ON DELETE SET NULL;\n" ++
  "ALTER TABLE valuation_metrics ADD CONSTRAINT fk_company_id FOREIGN KEY (company_id) REFERENCES companies(company_id) ON DELETE SET NULL;\n" ++
  "ALTER TABLE company_urls ADD CONSTRAINT fk_company_id FOREIGN KEY (company_id) REFERENCES companies(company_id) ON DELETE SET NULL;\n" ++
  "ALTER TABLE stock_prices ADD CONSTRAINT fk_company_id FOREIGN KEY (company_id) REFERENCES companies(company_id) ON DELETE SET NULL;\n"

/-- The full schema artifact text: the generation-timestamp comment (the
`datetime.now().strftime(...)` reading is the `now` argument), the joined
table definitions, and the fixed foreign-key section. -/
def schemaText (ts : List TableData) (now : String) : String :=
  "-- PostgreSQL Schema Generated on " ++ (now ++ "\n\n") ++
  String.intercalate "\n\n" (schemaStatements ts) ++
  "\n\n-- Foreign Key Constraints\n" ++ fkConstraintLines

/-- The statements of `import_sql`, in emission order. -/
def loadScriptStatements (ts : List TableData) (outDir : String) : List String :=
  (reorderTablesData ts).flatMap (fun t => buildImportBlock t (csvPathOf outDir t.name))

/-- The full import-script artifact text, `"\n".join(import_sql)`. -/
def loadScriptText (ts : List TableData) (outDir : String) : String :=
  String.intercalate "\n" (loadScriptStatements ts outDir)

/-! ### The SQLite primary-key ordinal invariant

`PRAGMA table_info` reports, for each column, either 0 or the 1-based
position of the column within the table's primary key; the nonzero
ordinals of a table are therefore exactly `1, ..., k` in some order. -/

/-- The nonzero primary-key ordinals of a table, in column order. -/
def pkOrds (t : TableData) : List Nat :=
  (t.columns.map (fun c => c.pk)).filter (fun k => k ≠ 0)

/-- Insertion into a sorted list. -/
def insertSorted (n : Nat) : List Nat → List Nat
  | [] => [n]
  | m :: ms => if n ≤ m then n :: m :: ms else m :: insertSorted n ms

/-- Insertion sort. -/
def sortNat : List Nat → List Nat
  | [] => []
  | n :: ns => insertSorted n (sortNat ns)

/-- A table is well formed when its nonzero pk ordinals, sorted, are
exactly `1, ..., k`. -/
def WfTable (t : TableData) : Prop :=
  sortNat (pkOrds t) = List.range' 1 (pkOrds t).length

instance (t : TableData) : Decidable (WfTable t) := by
  unfold WfTable
  infer_instance

/-- Everything after the first line of a text. -/
def dropFirstLine (s : String) : String :=
  String.mk ((s.data.dropWhile (fun c => c ≠ '\n')).drop 1)

example : clean_integer (.vstr "42") = .ok (.vint 42) := by decide

example : clean_integer (.vstr "abc") = .ok .vnone := by decide

example : clean_integer .vnone = .ok .vnone := by decide

example : clean_integer (.vstr "1e400") = .error .overflowError := by decide

example : clean_integer (.vstr "3.9") = .ok (.vint 3) := by decide

example : clean_integer (.vstr "-3.9") = .ok (.vint (-3)) := by decide

example : clean_integer (.vstr "1e30") = .ok .vnone := by decide

example : clean_integer (.vstr "-1e400") = .error .overflowError := by decide

example : clean_integer (.vstr "9223372036854775807") = .ok (.vint 9223372036854775807) := by decide

example : clean_integer (.vstr "9223372036854775808") = .ok .vnone := by decide

example : clean_integer (.vfloat .nan) = .ok .vnone := by decide

example : clean_integer (.vfloat .pinf) = .error .overflowError := by decide

example : clean_timestamp (.vstr "2024-07-27 20:20:00") =
    .ok (.vstr "2024-07-27 20:20:00") := by decide

example : clean_timestamp (.vstr "2024-07-27T20:20:00Z") =
    .ok (.vstr "2024-07-27 20:20:00+0000") := by decide

example : clean_timestamp (.vstr "2024-07-27 20:20:00+0000") =
    .ok (.vstr "2024-07-27 20:20:00+0000") := by decide

example : clean_timestamp (.vstr "2024-02-30 20:20:00") = .ok .vnone := by decide

example : clean_timestamp (.vstr "not a date") = .ok .vnone := by decide

example : clean_timestamp (.vstr "") = .ok (.vstr "") := by decide

example : clean_timestamp (.vint 5) = .ok (.vint 5) := by decide

example : clean_timestamp .vnone = .ok .vnone := by decide

example : clean_timestamp (.vstr "2024-07-27 20:20:00-0530") =
    .ok (.vstr "2024-07-27 20:20:00-0530") := by decide

example : clean_timestamp (.vstr "2024-12-31") = .ok (.vstr "2024-12-31 00:00:00") := by decide

example : cleanCell "company_id_updated" (.vstr "bad") = .ok .vnone := by decide

example : cleanCell "company_id" (.vstr "7") = .ok (.vint 7) := by decide

example : cleanCell "name" (.vstr "bad") = .ok (.vstr "bad") := by decide

example : cleanCell "shares_outstanding" (.vstr "10") = .ok (.vint 10) := by decide

/-! ### Claims C2, C3, C4, C10 -/

/-- C2: the claim says `clean_integer` and `clean_timestamp` never raise
for any input. `clean_timestamp` indeed always returns normally, but
`clean_integer("1e400")` computes `int(float("1e400")) = int(inf)`, which
raises `OverflowError` — an exception that the `except (ValueError,
TypeError)` clause does not catch. This theorem records both facts. -/
theorem c2_clean_timestamp_total_but_clean_integer_raises :
    (∀ v : PyVal, ∃ r, clean_timestamp v = Except.ok r) ∧
    clean_integer (PyVal.vstr "1e400") = Except.error PyExc.overflowError := by
  constructor
  · intro v
    cases v with
    | vstr s =>
      simp only [clean_timestamp]
      split
      · exact ⟨_, rfl⟩
      · cases h : fromisoChars (preproc s.data) <;> simp [h]
    | vnone => exact ⟨_, rfl⟩
    | vint n => exact ⟨_, rfl⟩
    | vfloat f => exact ⟨_, rfl⟩
  · decide

/-- C3: the claim's evaluations of `clean_integer`: `"42" ↦ 42`,
`"abc" ↦ null` and `null ↦ null` hold, but `"1e400"` does not map to
null — it raises an uncaught `OverflowError`. -/
theorem c3_clean_integer_evaluations :
    clean_integer (PyVal.vstr "42") = Except.ok (PyVal.vint 42) ∧
    clean_integer (PyVal.vstr "abc") = Except.ok PyVal.vnone ∧
    clean_integer PyVal.vnone = Except.ok PyVal.vnone ∧
    clean_integer (PyVal.vstr "1e400") = Except.error PyExc.overflowError := by
  refine ⟨by decide, by decide, by decide, by decide⟩

/-- C4 counterexample: the claim says a non-string input (e.g. an
integer) cleans to null; in the code `if value and isinstance(value, str)`
fails for the integer 5 and the value is returned unchanged, not null. -/
theorem c4_nonstring_not_nulled_cex :
    clean_timestamp (PyVal.vint 5) = Except.ok (PyVal.vint 5) ∧
    Except.ok (PyVal.vint 5) ≠ (Except.ok PyVal.vnone : Except PyExc PyVal) := by
  exact ⟨by decide, by decide⟩

/-- C4 (amended): `clean_timestamp` returns null passed through, returns
every non-string input unchanged (not null), returns the empty string
unchanged, maps every nonempty string that fails the preprocess-and-parse
step to null, and maps every parseable string to the canonical
`YYYY-MM-DD HH:MM:SS±ZZZZ` reformatting of its parse. -/
theorem c4_clean_timestamp_cases :
    clean_timestamp PyVal.vnone = Except.ok PyVal.vnone ∧
    (∀ v : PyVal, (∀ s, v ≠ PyVal.vstr s) → clean_timestamp v = Except.ok v) ∧
    clean_timestamp (PyVal.vstr "") = Except.ok (PyVal.vstr "") ∧
    (∀ s : String, s.data ≠ [] → fromisoChars (preproc s.data) = none →
      clean_timestamp (PyVal.vstr s) = Except.ok PyVal.vnone) ∧
    (∀ (s : String) (dt : PyDT), s.data ≠ [] → fromisoChars (preproc s.data) = some dt →
      clean_timestamp (PyVal.vstr s) = Except.ok (PyVal.vstr (String.mk (fmtChars dt)))) := by
  refine ⟨rfl, ?_, by decide, ?_, ?_⟩
  · intro v hv
    cases v with
    | vstr s => exact absurd rfl (hv s)
    | vnone => rfl
    | vint n => rfl
    | vfloat f => rfl
  · intro s hne hparse
    simp [clean_timestamp, hne, hparse]
  · intro s dt hne hparse
    simp [clean_timestamp, hne, hparse]

/-- C4 witness: the amended theorem applied at a concrete parseable
string. -/
theorem c4_clean_timestamp_cases_witness :
    clean_timestamp (PyVal.vstr "2024-07-27T20:20:00") =
      Except.ok (PyVal.vstr "2024-07-27 20:20:00") := by
  have h := c4_clean_timestamp_cases.2.2.2.2 "2024-07-27T20:20:00"
    ⟨2024, 7, 27, 20, 20, 0, 0, none⟩ (by decide) (by decide)
  exact h.trans (by decide)

/-- C10: dispatch precedence — for a column whose name ends with
`_updated` or `_date` and also contains `id` or `shares`, the export loop
applies `clean_timestamp`, never `clean_integer`: the `endswith` test is
checked first and the integer branch is behind `elif`. -/
theorem c10_timestamp_rule_precedence :
    ∀ (name : String) (v : PyVal),
      (endsWithL name.data "_updated".data = true ∨ endsWithL name.data "_date".data = true) →
      (containsL name.data "shares".data = true ∨ containsL name.data "id".data = true) →
      cleanCell name v = clean_timestamp v := by
  intro name v hend _hcontains
  unfold cleanCell
  have h : (endsWithL name.data "_updated".data || endsWithL name.data "_date".data) = true := by
    rcases hend with h | h <;> simp [h]
  simp [h]

/-- C10 witness: the precedence theorem applied at the column name
`company_id_updated`, which matches both rules. -/
theorem c10_timestamp_rule_precedence_witness :
    cleanCell "company_id_updated" (PyVal.vstr "bad") = clean_timestamp (PyVal.vstr "bad") :=
  c10_timestamp_rule_precedence "company_id_updated" (PyVal.vstr "bad")
    (Or.inl (by decide)) (Or.inr (by decide))

/-! ### Idempotence of timestamp cleaning (claim C7) -/

/-- All facts needed about the digit characters emitted by `strftime`:
they are digits with the right value, and differ from every separator
character that the parser or preprocessor inspects. -/
theorem digitCh_spec (k : Nat) :
    isDig (digitCh k) = true ∧ dVal (digitCh k) = k % 10 ∧
    digitCh k ≠ 'Z' ∧ digitCh k ≠ 'z' ∧ digitCh k ≠ ' ' ∧ digitCh k ≠ ':' ∧
    digitCh k ≠ '.' ∧ digitCh k ≠ '\n' := by
  have h : k % 10 < 10 := Nat.mod_lt _ (by norm_num)
  unfold digitCh
  generalize k % 10 = m at h ⊢
  interval_cases m <;> exact ⟨by decide, by decide, by decide, by decide, by decide,
    by decide, by decide, by decide⟩

/-- Reading back a two-digit zero-padded field. -/
theorem parse2_pad2 {n : Nat} (r : List Char) (h : n ≤ 99) :
    parse2 (pad2 n ++ r) = some (n, r) := by
  have h1 := digitCh_spec (n / 10)
  have h2 := digitCh_spec n
  show parse2 (digitCh (n / 10) :: digitCh n :: r) = some (n, r)
  simp only [parse2, h1.1, h2.1, h1.2.1, h2.2.1, Bool.and_self, if_true,
    Option.some.injEq, Prod.mk.injEq]
  exact ⟨by omega, trivial⟩

/-- Reading back a four-digit zero-padded field. -/
theorem parse4_pad4 {n : Nat} (r : List Char) (h : n ≤ 9999) :
    parse4 (pad4 n ++ r) = some (n, r) := by
  have h1 := digitCh_spec (n / 1000)
  have h2 := digitCh_spec (n / 100)
  have h3 := digitCh_spec (n / 10)
  have h4 := digitCh_spec n
  show parse4 (digitCh (n / 1000) :: digitCh (n / 100) :: digitCh (n / 10) :: digitCh n :: r) =
    some (n, r)
  simp only [parse4, h1.1, h2.1, h3.1, h4.1, h1.2.1, h2.2.1, h3.2.1, h4.2.1,
    Bool.and_self, if_true, Option.some.injEq, Prod.mk.injEq]
  exact ⟨by omega, trivial⟩

/-- Replacement distributes over append. -/
theorem replaceChar_append (p : Char) (r a b : List Char) :
    replaceChar p r (a ++ b) = replaceChar p r a ++ replaceChar p r b := by
  induction a with
  | nil => rfl
  | cons c t ih => simp [replaceChar, ih]

/-- Replacement is the identity on lists avoiding the pattern. -/
theorem replaceChar_of_not_mem {p : Char} (r : List Char) {cs : List Char}
    (h : p ∉ cs) : replaceChar p r cs = cs := by
  induction cs with
  | nil => rfl
  | cons c t ih =>
    have hc : c ≠ p := fun e => h (e ▸ List.mem_cons_self c t)
    have ht : p ∉ t := fun m => h (List.mem_cons_of_mem c m)
    simp [replaceChar, hc, ih ht]

/-- The canonical format splits at its single space. -/
theorem fmtChars_split (dt : PyDT) :
    fmtChars dt = datePartChars dt ++ ' ' :: timePartChars dt := by
  simp [fmtChars, datePartChars, timePartChars]

/-- Characters of `pad2` are digit characters. -/
theorem mem_pad2 {c : Char} {n : Nat} (h : c ∈ pad2 n) : ∃ k, c = digitCh k := by
  simp only [pad2, List.mem_cons, List.not_mem_nil, or_false] at h
  rcases h with h | h
  · exact ⟨n / 10, h⟩
  · exact ⟨n, h⟩

/-- Characters of `pad4` are digit characters. -/
theorem mem_pad4 {c : Char} {n : Nat} (h : c ∈ pad4 n) : ∃ k, c = digitCh k := by
  simp only [pad4, List.mem_cons, List.not_mem_nil, or_false] at h
  rcases h with h | h | h | h
  · exact ⟨n / 1000, h⟩
  · exact ⟨n / 100, h⟩
  · exact ⟨n / 10, h⟩
  · exact ⟨n, h⟩

/-- Characters of `offChars` are digits or a sign. -/
theorem mem_offChars {c : Char} {o : Option Int} (h : c ∈ offChars o) :
    (∃ k, c = digitCh k) ∨ c = '+' ∨ c = '-' := by
  cases o with
  | none => cases h
  | some k =>
    simp only [offChars] at h
    rcases List.mem_cons.mp h with h | h
    · subst h
      by_cases hk : k < (0 : Int)
      · simp [hk]
      · simp [hk]
    · rcases List.mem_append.mp h with h | h
      · exact Or.inl (mem_pad2 h)
      · exact Or.inl (mem_pad2 h)

/-- A char that equals no digit char and none of the separator or sign
characters avoids the whole canonical format. -/
theorem not_mem_fmtChars {c : Char} (hd : ∀ k, c ≠ digitCh k)
    (hsep : c ≠ '-' ∧ c ≠ ':' ∧ c ≠ '+' ∧ c ≠ ' ') (dt : PyDT) :
    c ∉ fmtChars dt := by
  intro h
  unfold fmtChars at h
  simp only [List.append_assoc, List.cons_append] at h
  rcases List.mem_append.mp h with h | h
  · rcases mem_pad4 h with ⟨k, hk⟩; exact hd k hk
  · rcases List.mem_cons.mp h with h | h
    · exact hsep.1 h
    · rcases List.mem_append.mp h with h | h
      · rcases mem_pad2 h with ⟨k, hk⟩; exact hd k hk
      · rcases List.mem_cons.mp h with h | h
        · exact hsep.1 h
        · rcases List.mem_append.mp h with h | h
          · rcases mem_pad2 h with ⟨k, hk⟩; exact hd k hk
          · rcases List.mem_cons.mp h with h | h
            · exact hsep.2.2.2 h
            · rcases List.mem_append.mp h with h | h
              · rcases mem_pad2 h with ⟨k, hk⟩; exact hd k hk
              · rcases List.mem_cons.mp h with h | h
                · exact hsep.2.1 h
                · rcases List.mem_append.mp h with h | h
                  · rcases mem_pad2 h with ⟨k, hk⟩; exact hd k hk
                  · rcases List.mem_cons.mp h with h | h
                    · exact hsep.2.1 h
                    · rcases List.mem_append.mp h with h | h
                      · rcases mem_pad2 h with ⟨k, hk⟩; exact hd k hk
                      · rcases mem_offChars h with ⟨k, hk⟩ | h | h
                        · exact hd k hk
                        · exact hsep.2.2.1 h
                        · exact hsep.1 h

/-- Letter `Z` never occurs in the canonical format. -/
theorem z_not_mem_fmtChars (dt : PyDT) : 'Z' ∉ fmtChars dt :=
  not_mem_fmtChars (fun k e => (digitCh_spec k).2.2.1 e.symm)
    ⟨by decide, by decide, by decide, by decide⟩ dt

/-- Space never occurs in the date half. -/
theorem space_not_mem_datePart (dt : PyDT) : ' ' ∉ datePartChars dt := by
  intro h
  unfold datePartChars at h
  simp only [List.append_assoc, List.cons_append] at h
  have hd : ∀ k, (' ' : Char) ≠ digitCh k := fun k e => (digitCh_spec k).2.2.2.2.1 e.symm
  rcases List.mem_append.mp h with h | h
  · rcases mem_pad4 h with ⟨k, hk⟩; exact hd k hk
  · rcases List.mem_cons.mp h with h | h
    · exact absurd h (by decide)
    · rcases List.mem_append.mp h with h | h
      · rcases mem_pad2 h with ⟨k, hk⟩; exact hd k hk
      · rcases List.mem_cons.mp h with h | h
        · exact absurd h (by decide)
        · rcases mem_pad2 h with ⟨k, hk⟩; exact hd k hk

/-- Space never occurs in the time half. -/
theorem space_not_mem_timePart (dt : PyDT) : ' ' ∉ timePartChars dt := by
  intro h
  unfold timePartChars at h
  simp only [List.append_assoc, List.cons_append] at h
  have hd : ∀ k, (' ' : Char) ≠ digitCh k := fun k e => (digitCh_spec k).2.2.2.2.1 e.symm
  rcases List.mem_append.mp h with h | h
  · rcases mem_pad2 h with ⟨k, hk⟩; exact hd k hk
  · rcases List.mem_cons.mp h with h | h
    · exact absurd h (by decide)
    · rcases List.mem_append.mp h with h | h
      · rcases mem_pad2 h with ⟨k, hk⟩; exact hd k hk
      · rcases List.mem_cons.mp h with h | h
        · exact absurd h (by decide)
        · rcases List.mem_append.mp h with h | h
          · rcases mem_pad2 h with ⟨k, hk⟩; exact hd k hk
          · rcases mem_offChars h with ⟨k, hk⟩ | h | h
            · exact hd k hk
            · exact absurd h (by decide)
            · exact absurd h (by decide)

/-- Preprocessing the canonical format only swaps its separator space for
`T`. -/
theorem preproc_fmtChars (dt : PyDT) :
    preproc (fmtChars dt) = datePartChars dt ++ 'T' :: timePartChars dt := by
  unfold preproc
  rw [replaceChar_of_not_mem _ (z_not_mem_fmtChars dt), fmtChars_split,
    replaceChar_append,
    replaceChar_of_not_mem _ (space_not_mem_datePart dt)]
  show datePartChars dt ++ (['T'] ++ replaceChar ' ' ['T'] (timePartChars dt)) = _
  rw [replaceChar_of_not_mem _ (space_not_mem_timePart dt)]
  rfl

/-- Simp form: a padded field is never `[]`. -/
theorem pad2_ne_nil (n : Nat) : (pad2 n = []) = False := by simp [pad2]

/-- Simp form: digit characters are not `:`. -/
theorem digitCh_ne_colon (k : Nat) : (digitCh k = ':') = False :=
  eq_false (digitCh_spec k).2.2.2.2.2.1

/-- Simp form: digit characters are not `.`. -/
theorem digitCh_ne_dot (k : Nat) : (digitCh k = '.') = False :=
  eq_false (digitCh_spec k).2.2.2.2.2.2.1

/-- Reading back a two-digit field standing alone. -/
theorem parse2_pad2_nil {n : Nat} (h : n ≤ 99) : parse2 (pad2 n) = some (n, []) := by
  have := parse2_pad2 (n := n) [] h
  simpa using this

/-- A padded field never starts with an expected separator. -/
theorem expectC_colon_pad2 (n : Nat) (r : List Char) :
    expectC ':' (pad2 n ++ r) = none := by
  simp [pad2, expectC, digitCh_ne_colon]

/-- A padded field standing alone never starts with an expected separator. -/
theorem expectC_colon_pad2_nil (n : Nat) : expectC ':' (pad2 n) = none := by
  simp [pad2, expectC, digitCh_ne_colon]

/-- Reading back the `HHMM` offset digits emitted by `%z`. -/
theorem parseOffHM_pads {a : Nat} (ha : a ≤ 1439) :
    parseOffHM (pad2 (a / 60) ++ pad2 (a % 60)) = some a := by
  have hp : parse2 (pad2 (a / 60) ++ pad2 (a % 60)) = some (a / 60, pad2 (a % 60)) :=
    parse2_pad2 _ (by omega)
  have hq : parse2 (pad2 (a % 60)) = some (a % 60, []) := parse2_pad2_nil (by omega)
  unfold parseOffHM
  rw [hp]
  simp only [pad2_ne_nil, if_false, expectC_colon_pad2_nil, hq]
  rw [if_pos ⟨trivial, by omega, by omega⟩]
  congr 1
  omega

/-- Reading back the `%z` output of an aware datetime. -/
theorem parseOffTail_offChars {k : Int} (hk : k.natAbs ≤ 1439) :
    parseOffTail (offChars (some k)) = some (some k) := by
  by_cases hneg : k < (0 : Int)
  · show parseOffTail ((if k < 0 then '-' else '+') ::
      (pad2 (k.natAbs / 60) ++ pad2 (k.natAbs % 60))) = some (some k)
    rw [if_pos hneg]
    unfold parseOffTail
    rw [if_neg (by simp [pad2]), if_neg (by simp [pad2])]
    simp [parseOffHM_pads hk, show ('-' : Char) = '+' ↔ False from by decide,
      show ('-' : Char) = '-' ↔ True from by decide]
    rw [abs_of_neg hneg, neg_neg]
  · show parseOffTail ((if k < 0 then '-' else '+') ::
      (pad2 (k.natAbs / 60) ++ pad2 (k.natAbs % 60))) = some (some k)
    rw [if_neg hneg]
    unfold parseOffTail
    rw [if_neg (by simp [pad2]), if_neg (by simp [pad2])]
    simp [parseOffHM_pads hk, show ('+' : Char) = '+' ↔ True from by decide]
    exact not_lt.mp hneg

/-- An offset tail never starts with a fraction dot. -/
theorem expectC_dot_offChars (o : Option Int) : expectC '.' (offChars o) = none := by
  cases o with
  | none => rfl
  | some k =>
    show expectC '.' ((if k < 0 then '-' else '+') :: _) = none
    by_cases hk : k < (0 : Int)
    · rw [if_pos hk]
      simp [expectC, show ('-' : Char) = '.' ↔ False from by decide]
    · rw [if_neg hk]
      simp [expectC, show ('+' : Char) = '.' ↔ False from by decide]

/-- Reading back the `%z` output for any (possibly absent) offset. -/
theorem parseOffTail_offChars_opt (off : Option Int)
    (hoff : ∀ k, off = some k → k.natAbs ≤ 1439) :
    parseOffTail (offChars off) = some off := by
  cases off with
  | none => rfl
  | some k => exact parseOffTail_offChars (hoff k rfl)

/-- Reading back the formatted time-of-day together with its offset. -/
theorem parseTimeTail_fmt (h mi s : Nat) (off : Option Int)
    (hh : h ≤ 23) (hm : mi ≤ 59) (hs : s ≤ 59)
    (hoff : ∀ k, off = some k → k.natAbs ≤ 1439) :
    parseTimeTail (pad2 h ++ ':' :: (pad2 mi ++ ':' :: (pad2 s ++ offChars off))) =
      some (h, mi, s, 0, off) := by
  have e1 : parse2 (pad2 h ++ ':' :: (pad2 mi ++ ':' :: (pad2 s ++ offChars off))) =
      some (h, ':' :: (pad2 mi ++ ':' :: (pad2 s ++ offChars off))) :=
    parse2_pad2 _ (by omega)
  have e2 : parse2 (pad2 mi ++ ':' :: (pad2 s ++ offChars off)) =
      some (mi, ':' :: (pad2 s ++ offChars off)) := parse2_pad2 _ (by omega)
  have e3 : parse2 (pad2 s ++ offChars off) = some (s, offChars off) :=
    parse2_pad2 _ (by omega)
  have ec : ∀ X : List Char, expectC ':' (':' :: X) = some X := fun X => by
    simp [expectC]
  simp only [parseTimeTail, e1, e2, e3, ec,
    expectC_dot_offChars, parseOffTail_offChars_opt off hoff, timeGuard]
  rw [if_pos ⟨hh, hm, hs⟩]

/-- Formatting a valid datetime and parsing it back (after the
`clean_timestamp` preprocessing) recovers all fields except the
microseconds, which `%Y-%m-%d %H:%M:%S%z` does not print. -/
theorem fromiso_fmt_roundtrip (dt : PyDT) (hv : ValidDT dt) :
    fromisoChars (preproc (fmtChars dt)) =
      some ⟨dt.year, dt.month, dt.day, dt.hour, dt.minute, dt.second, 0, dt.off⟩ := by
  obtain ⟨h1, h2, h3, h4, h5, h6, h7, h8, h9, h10⟩ := hv
  have hd31 : daysInMonth dt.year dt.month ≤ 31 := by
    unfold daysInMonth
    split_ifs <;> omega
  rw [preproc_fmtChars]
  have hshape : datePartChars dt ++ 'T' :: timePartChars dt =
      pad4 dt.year ++ '-' :: (pad2 dt.month ++ '-' :: (pad2 dt.day ++ 'T' ::
        (pad2 dt.hour ++ ':' :: (pad2 dt.minute ++ ':' ::
          (pad2 dt.second ++ offChars dt.off))))) := by
    simp [datePartChars, timePartChars]
  rw [hshape]
  have e1 : parse4 (pad4 dt.year ++ '-' :: (pad2 dt.month ++ '-' :: (pad2 dt.day ++ 'T' ::
      (pad2 dt.hour ++ ':' :: (pad2 dt.minute ++ ':' :: (pad2 dt.second ++ offChars dt.off)))))) =
      some (dt.year, '-' :: (pad2 dt.month ++ '-' :: (pad2 dt.day ++ 'T' ::
      (pad2 dt.hour ++ ':' :: (pad2 dt.minute ++ ':' :: (pad2 dt.second ++ offChars dt.off)))))) :=
    parse4_pad4 _ (by omega)
  have e2 : parse2 (pad2 dt.month ++ '-' :: (pad2 dt.day ++ 'T' ::
      (pad2 dt.hour ++ ':' :: (pad2 dt.minute ++ ':' :: (pad2 dt.second ++ offChars dt.off))))) =
      some (dt.month, '-' :: (pad2 dt.day ++ 'T' ::
      (pad2 dt.hour ++ ':' :: (pad2 dt.minute ++ ':' :: (pad2 dt.second ++ offChars dt.off))))) :=
    parse2_pad2 _ (by omega)
  have e3 : parse2 (pad2 dt.day ++ 'T' ::
      (pad2 dt.hour ++ ':' :: (pad2 dt.minute ++ ':' :: (pad2 dt.second ++ offChars dt.off)))) =
      some (dt.day, 'T' ::
      (pad2 dt.hour ++ ':' :: (pad2 dt.minute ++ ':' :: (pad2 dt.second ++ offChars dt.off)))) :=
    parse2_pad2 _ (by omega)
  have ed : ∀ X : List Char, expectC '-' ('-' :: X) = some X := fun X => by
    simp [expectC]
  have et := parseTimeTail_fmt dt.hour dt.minute dt.second dt.off h7 h8 h9 h10
  simp only [fromisoChars, e1, e2, e3, ed, et, List.tail_cons]
  rw [if_pos ⟨h1, h3, h4, h5, h6⟩, if_neg (by simp)]

/-- A digit character's value is at most 9. -/
theorem dVal_le_of_isDig {c : Char} (h : isDig c = true) : dVal c ≤ 9 := by
  unfold isDig at h
  rw [Bool.and_eq_true] at h
  have h2 : c.toNat ≤ 57 := by simpa using h.2
  unfold dVal
  omega

/-- Reading two digits yields a value of at most 99. -/
theorem parse2_le {cs : List Char} {n : Nat} {r : List Char}
    (h : parse2 cs = some (n, r)) : n ≤ 99 := by
  rcases cs with _ | ⟨a, _ | ⟨b, t⟩⟩
  · cases h
  · cases h
  · simp only [parse2] at h
    split at h
    · rename_i hab
      rw [Bool.and_eq_true] at hab
      have ha := dVal_le_of_isDig hab.1
      have hb := dVal_le_of_isDig hab.2
      simp only [Option.some.injEq, Prod.mk.injEq] at h
      omega
    · cases h

/-- Reading four digits yields a value of at most 9999. -/
theorem parse4_le {cs : List Char} {n : Nat} {r : List Char}
    (h : parse4 cs = some (n, r)) : n ≤ 9999 := by
  rcases cs with _ | ⟨a, _ | ⟨b, _ | ⟨c, _ | ⟨d, t⟩⟩⟩⟩
  · cases h
  · cases h
  · cases h
  · cases h
  · simp only [parse4] at h
    split at h
    · rename_i habcd
      simp only [Bool.and_eq_true] at habcd
      have ha := dVal_le_of_isDig habcd.1.1.1
      have hb := dVal_le_of_isDig habcd.1.1.2
      have hc := dVal_le_of_isDig habcd.1.2
      have hd := dVal_le_of_isDig habcd.2
      simp only [Option.some.injEq, Prod.mk.injEq] at h
      omega
    · cases h

/-- The offset minutes accepted by `parseOffHM` are below one day. -/
theorem parseOffHM_le {cs : List Char} {m : Nat} (h : parseOffHM cs = some m) :
    m ≤ 1439 := by
  unfold parseOffHM at h
  repeat' split at h
  all_goals first
    | (simp only [Option.some.injEq] at h; omega)
    | cases h

/-- The offsets produced by `parseOffTail` are below one day in magnitude. -/
theorem parseOffTail_le {cs : List Char} {o : Option Int}
    (h : parseOffTail cs = some o) : ∀ k, o = some k → k.natAbs ≤ 1439 := by
  intro k hk
  subst hk
  unfold parseOffTail at h
  repeat' split at h
  all_goals first
    | (obtain ⟨m, hm, hfm⟩ := Option.map_eq_some'.mp h
       have hb := parseOffHM_le hm
       simp only [Option.some.injEq] at hfm
       omega)
    | (simp only [Option.some.injEq] at h; omega)
    | cases h

/-- What a successful `timeGuard` tells about its output. -/
theorem timeGuard_some {a b c mc : Nat} {off : Option Int}
    {t : Nat × Nat × Nat × Nat × Option Int}
    (h : timeGuard a b c mc off = some t) :
    t = (a, b, c, mc, off) ∧ a ≤ 23 ∧ b ≤ 59 ∧ c ≤ 59 := by
  unfold timeGuard at h
  split at h
  · rename_i hcond
    exact ⟨(Option.some.inj h).symm, hcond⟩
  · cases h

/-- Field bounds guaranteed by a successful `parseTimeTail`. -/
theorem parseTimeTail_bounds {cs : List Char} {h mi s mc : Nat} {off : Option Int}
    (hp : parseTimeTail cs = some (h, mi, s, mc, off)) :
    h ≤ 23 ∧ mi ≤ 59 ∧ s ≤ 59 ∧ ∀ k, off = some k → k.natAbs ≤ 1439 := by
  unfold parseTimeTail at hp
  repeat' split at hp
  all_goals first
    | cases hp
    | (rename_i hoff
       obtain ⟨ht, hb⟩ := timeGuard_some hp
       simp only [Prod.mk.injEq] at ht
       obtain ⟨e1, e2, e3, e4, e5⟩ := ht
       subst e1; subst e2; subst e3; subst e5
       exact ⟨hb.1, hb.2.1, hb.2.2, parseOffTail_le hoff⟩)

/-- Every datetime produced by `fromisoChars` satisfies the constructor's
field ranges. -/
theorem fromisoChars_valid {cs : List Char} {dt : PyDT}
    (hp : fromisoChars cs = some dt) : ValidDT dt := by
  unfold fromisoChars at hp
  repeat' split at hp
  all_goals try (cases hp)
  all_goals unfold ValidDT
  all_goals simp only []
  all_goals refine ⟨by omega, parse4_le (by assumption), by omega, by omega, by omega,
    by omega, ?_, ?_, ?_, ?_⟩
  all_goals first
    | omega
    | (intro k hk
       cases hk
       done)
    | (rename_i hpt
       rcases parseTimeTail_bounds hpt with ⟨b1, b2, b3, b4⟩
       first
       | exact b1
       | exact b2
       | exact b3
       | exact b4)

/-- The canonical format is never the empty string. -/
theorem fmtChars_ne_nil (dt : PyDT) : fmtChars dt ≠ [] := by
  simp [fmtChars, pad4]

/-- C7: timestamp cleaning is idempotent on its own output — whenever
`clean_timestamp` maps a string `s` to a non-null string `c`, cleaning `c`
again returns `c` itself: the canonical `%Y-%m-%d %H:%M:%S%z` output
reparses (after the `Z`/space preprocessing) to the same datetime and
reformats to the same text. -/
theorem c7_clean_timestamp_idempotent :
    ∀ s c : String, clean_timestamp (PyVal.vstr s) = Except.ok (PyVal.vstr c) →
      clean_timestamp (PyVal.vstr c) = Except.ok (PyVal.vstr c) := by
  intro s c h
  by_cases hs : s.data = []
  · rw [show clean_timestamp (PyVal.vstr s) = Except.ok (PyVal.vstr s) from by
      simp [clean_timestamp, hs]] at h
    simp only [Except.ok.injEq, PyVal.vstr.injEq] at h
    subst h
    simp [clean_timestamp, hs]
  · cases hr : fromisoChars (preproc s.data) with
    | none =>
      rw [show clean_timestamp (PyVal.vstr s) = Except.ok PyVal.vnone from by
        simp [clean_timestamp, hs, hr]] at h
      exact absurd h (by simp)
    | some dt =>
      have hval := fromisoChars_valid hr
      rw [show clean_timestamp (PyVal.vstr s) =
          Except.ok (PyVal.vstr (String.mk (fmtChars dt))) from by
        simp [clean_timestamp, hs, hr]] at h
      simp only [Except.ok.injEq, PyVal.vstr.injEq] at h
      subst h
      have hrt := fromiso_fmt_roundtrip dt hval
      have hmu : fmtChars ⟨dt.year, dt.month, dt.day, dt.hour, dt.minute,
          dt.second, 0, dt.off⟩ = fmtChars dt := by
        cases dt
        rfl
      simp [clean_timestamp, fmtChars_ne_nil dt, hrt, hmu]

/-- C7 witness: the idempotence theorem applied to a concrete aware
timestamp string. -/
theorem c7_clean_timestamp_idempotent_witness :
    clean_timestamp (PyVal.vstr "2024-07-27 20:20:00+0000") =
      Except.ok (PyVal.vstr "2024-07-27 20:20:00+0000") :=
  c7_clean_timestamp_idempotent "2024-07-27 20:20:00Z" "2024-07-27 20:20:00+0000"
    (by decide)

example : buildTableSQL ⟨"t", [⟨"a", "INTEGER", 0, none, 1⟩, ⟨"b", "TEXT", 1, none, 0⟩]⟩ =
    "CREATE TABLE IF NOT EXISTS t (\n    a BIGSERIAL,\n    b TEXT NOT NULL,\n    CONSTRAINT t_pkey PRIMARY KEY (a)\n);" := by decide

example : buildTableSQL ⟨"t", [⟨"a", "real", 0, some "0", 0⟩]⟩ =
    "CREATE TABLE IF NOT EXISTS t (\n    a DOUBLE PRECISION DEFAULT 0\n);" := by decide

theorem insertSorted_perm (n : Nat) (l : List Nat) : List.Perm (insertSorted n l) (n :: l) := by
  induction l with
  | nil => rfl
  | cons m ms ih =>
    unfold insertSorted
    split
    · rfl
    · exact (List.Perm.cons m ih).trans (List.Perm.swap n m ms)

theorem sortNat_perm (l : List Nat) : List.Perm (sortNat l) l := by
  induction l with
  | nil => rfl
  | cons n ns ih => exact (insertSorted_perm n (sortNat ns)).trans (List.Perm.cons n ih)

/-- A well-formed table's ordinals are a permutation of `1, ..., k`. -/
theorem wf_perm {t : TableData} (h : WfTable t) :
    List.Perm (pkOrds t) (List.range' 1 (pkOrds t).length) := by
  have hp := sortNat_perm (pkOrds t)
  rw [h] at hp
  exact hp.symm

/-- In a well-formed table, some column carries pk ordinal 1 as soon as
any column is part of the primary key. -/
theorem wf_haspk_iff {t : TableData} (h : WfTable t) :
    (∃ c ∈ t.columns, c.pk ≠ 0) ↔ pkColumns t ≠ [] := by
  have hperm := wf_perm h
  constructor
  · intro ⟨c, hc, hpk⟩
    have hmem : c.pk ∈ pkOrds t := by
      unfold pkOrds
      rw [List.mem_filter]
      exact ⟨List.mem_map_of_mem _ hc, by simpa using hpk⟩
    have hlen : 1 ≤ (pkOrds t).length := by
      cases e : pkOrds t with
      | nil => rw [e] at hmem; cases hmem
      | cons a l => simp [e]
    have hone : 1 ∈ pkOrds t := by
      apply hperm.mem_iff.mpr
      have : 1 ∈ List.range' 1 (pkOrds t).length := by
        rw [List.mem_range'_1]
        omega
      exact this
    unfold pkOrds at hone
    rw [List.mem_filter] at hone
    obtain ⟨hone1, _⟩ := hone
    rw [List.mem_map] at hone1
    obtain ⟨c1, hc1, hpk1⟩ := hone1
    intro hcontra
    have : c1 ∈ t.columns.filter (fun c => c.pk == 1) := by
      rw [List.mem_filter]
      exact ⟨hc1, by simp [hpk1]⟩
    unfold pkColumns at hcontra
    rw [List.map_eq_nil] at hcontra
    rw [hcontra] at this
    cases this
  · intro hne
    cases e : t.columns.filter (fun c => c.pk == 1) with
    | nil =>
      unfold pkColumns at hne
      rw [e] at hne
      simp at hne
    | cons c l =>
      have : c ∈ t.columns.filter (fun c => c.pk == 1) := by rw [e]; exact List.mem_cons_self c l
      rw [List.mem_filter] at this
      exact ⟨c, this.1, by have := this.2; simp at this; omega⟩

/-- In a well-formed table with a primary key there is exactly one column
with ordinal 1, and `pk_columns` is that singleton. -/
theorem wf_pkcols_single {t : TableData} (h : WfTable t) (hne : pkColumns t ≠ []) :
    ∃ c, c ∈ t.columns ∧ c.pk = 1 ∧ pkColumns t = [c.name] := by
  have hperm := wf_perm h
  have hex : ∃ c ∈ t.columns, c.pk ≠ 0 := (wf_haspk_iff h).mpr hne
  obtain ⟨c0, hc0, hpk0⟩ := hex
  have hmem : c0.pk ∈ pkOrds t := by
    unfold pkOrds
    rw [List.mem_filter]
    exact ⟨List.mem_map_of_mem _ hc0, by simpa using hpk0⟩
  have hlen : 1 ≤ (pkOrds t).length := by
    cases e : pkOrds t with
    | nil => rw [e] at hmem; cases hmem
    | cons a l => simp [e]
  have hcount : (pkOrds t).count 1 = 1 := by
    rw [hperm.count_eq]
    have hnd : (List.range' 1 (pkOrds t).length).Nodup := List.nodup_range' _ _
    have hm : 1 ∈ List.range' 1 (pkOrds t).length := by
      rw [List.mem_range'_1]
      omega
    exact List.count_eq_one_of_mem hnd hm
  have hcount2 : (t.columns.filter (fun c => c.pk == 1)).length = 1 := by
    have e1 : (pkOrds t).count 1 = (t.columns.map (fun c => c.pk)).count 1 := by
      unfold pkOrds
      rw [List.count_filter]
      simp
    have e2 : (t.columns.map (fun c => c.pk)).count 1 =
        t.columns.countP (fun c => c.pk == 1) := by
      rw [List.count_eq_countP, List.countP_map]
      rfl
    have e3 : t.columns.countP (fun c => c.pk == 1) =
        (t.columns.filter (fun c => c.pk == 1)).length := List.countP_eq_length_filter _ _
    omega
  obtain ⟨c, hc⟩ := List.length_eq_one.mp hcount2
  have hcmem : c ∈ t.columns.filter (fun c => c.pk == 1) := by
    rw [hc]
    exact List.mem_cons_self c []
  rw [List.mem_filter] at hcmem
  refine ⟨c, hcmem.1, by have := hcmem.2; simpa using this, ?_⟩
  unfold pkColumns
  rw [hc]
  rfl

/-! ### Claim C8: presence of the referential-pruning DELETE -/

theorem data_append (a b : String) : (a ++ b).data = a.data ++ b.data := rfl

/-- Strings differing at some position differ. -/
theorem strNeOfIdx {s t : String} (i : Nat)
    (h : s.data[i]? ≠ t.data[i]?) : s ≠ t :=
  fun e => h (by rw [e])

/-- Two appends with literal heads that differ inside both heads differ. -/
theorem strNe_of_lit {p q : String} (s t : String) (i : Nat)
    (hp : i < p.data.length) (hq : i < q.data.length)
    (hne : p.data[i]? ≠ q.data[i]?) :
    p ++ s ≠ q ++ t := by
  apply strNeOfIdx i
  rw [data_append, data_append, List.getElem?_append, List.getElem?_append,
    if_pos hp, if_pos hq]
  exact hne

theorem delete_ne_create (a b : String) : deleteOrphansStmt a ≠ createStagingStmt b := by
  unfold deleteOrphansStmt createStagingStmt
  exact strNe_of_lit _ _ 0 (by decide) (by decide) (by decide)

theorem delete_ne_truncate (a b : String) : deleteOrphansStmt a ≠ truncateStmt b := by
  unfold deleteOrphansStmt truncateStmt
  exact strNe_of_lit _ _ 0 (by decide) (by decide) (by decide)

theorem delete_ne_copy (a b p : String) : deleteOrphansStmt a ≠ copyStmt b p := by
  unfold deleteOrphansStmt copyStmt
  exact strNe_of_lit _ _ 0 (by decide) (by decide) (by decide)

theorem delete_ne_upsert (a : String) (t : TableData) :
    deleteOrphansStmt a ≠ upsertStmt t := by
  unfold deleteOrphansStmt upsertStmt
  exact strNe_of_lit _ _ 9 (by decide) (by decide) (by decide)

theorem delete_ne_plainInsert (a b : String) : deleteOrphansStmt a ≠ plainInsertStmt b := by
  unfold deleteOrphansStmt plainInsertStmt
  exact strNe_of_lit _ _ 0 (by decide) (by decide) (by decide)

theorem delete_ne_drop (a b : String) : deleteOrphansStmt a ≠ dropStagingStmt b := by
  unfold deleteOrphansStmt dropStagingStmt
  exact strNe_of_lit _ _ 0 (by decide) (by decide) (by decide)

/-- The DELETE statement sits in a table's import block exactly when the
script's two guards hold. -/
theorem delete_mem_block_iff (t : TableData) (pth : String) :
    deleteOrphansStmt t.name ∈ buildImportBlock t pth ↔
      (pkColumns t ≠ [] ∧ t.name ≠ "companies" ∧ hasCompanyId t = true) := by
  unfold buildImportBlock
  by_cases h1 : pkColumns t ≠ []
  · rw [if_pos h1]
    by_cases h2 : t.name ≠ "companies" ∧ hasCompanyId t = true
    · rw [if_pos h2]
      apply iff_of_true
      · simp [List.mem_append]
      · exact ⟨h1, h2⟩
    · rw [if_neg h2]
      apply iff_of_false
      · intro hm
        simp only [List.nil_append, List.mem_append, List.mem_cons,
          List.not_mem_nil, or_false, List.mem_singleton] at hm
        rcases hm with (h | h | h) | h | h
        · exact delete_ne_create _ _ h
        · exact delete_ne_truncate _ _ h
        · exact delete_ne_copy _ _ _ h
        · exact delete_ne_upsert _ _ h
        · exact delete_ne_drop _ _ h
      · intro hr
        exact h2 ⟨hr.2.1, hr.2.2⟩
  · rw [if_neg h1]
    apply iff_of_false
    · intro hm
      simp only [List.mem_append, List.mem_cons, List.not_mem_nil, or_false,
        List.mem_singleton] at hm
      rcases hm with (h | h | h) | h | h
      · exact delete_ne_create _ _ h
      · exact delete_ne_truncate _ _ h
      · exact delete_ne_copy _ _ _ h
      · exact delete_ne_plainInsert _ _ h
      · exact delete_ne_drop _ _ h
    · intro hr
      exact h1 hr.1

/-- C8: for a well-formed table, the generated import block contains the
referential-pruning DELETE statement iff the table is not `companies`,
has at least one primary-key column and has a column named `company_id`. -/
theorem c8_delete_iff (t : TableData) (pth : String) (hwf : WfTable t) :
    deleteOrphansStmt t.name ∈ buildImportBlock t pth ↔
      (t.name ≠ "companies" ∧ (∃ c ∈ t.columns, c.pk ≠ 0) ∧
        ∃ c ∈ t.columns, c.name = "company_id") := by
  rw [delete_mem_block_iff]
  have hcid : hasCompanyId t = true ↔ ∃ c ∈ t.columns, c.name = "company_id" := by
    simp [hasCompanyId, List.any_eq_true]
  constructor
  · rintro ⟨h1, h2, h3⟩
    exact ⟨h2, (wf_haspk_iff hwf).mpr h1, hcid.mp h3⟩
  · rintro ⟨h1, h2, h3⟩
    exact ⟨(wf_haspk_iff hwf).mp h2, h1, hcid.mpr h3⟩

/-- C8 witness: the characterization applied to a concrete dependent
table (DELETE present) and read off at its positive side. -/
theorem c8_delete_iff_witness :
    deleteOrphansStmt "financials" ∈
      buildImportBlock ⟨"financials", [⟨"id", "INTEGER", 0, none, 1⟩,
        ⟨"company_id", "INTEGER", 0, none, 0⟩]⟩ "/out/financials.csv" :=
  (c8_delete_iff ⟨"financials", [⟨"id", "INTEGER", 0, none, 1⟩,
      ⟨"company_id", "INTEGER", 0, none, 0⟩]⟩ "/out/financials.csv" (by decide)).mpr
    ⟨by decide, ⟨⟨"id", "INTEGER", 0, none, 1⟩, by decide, by decide⟩,
      ⟨⟨"company_id", "INTEGER", 0, none, 0⟩, by decide, rfl⟩⟩

/-! ### Claim C5: INTEGER type mapping -/

/-- C5 counterexample: in a well-formed two-column composite-key table
whose columns are both INTEGER, the second key member (pk ordinal 2) is
emitted as `BIGSERIAL`, not `BIGINT` as the claim requires: the schema
loop passes the truthy ordinal `col[5]` to the type mapping, so every
primary-key member — not only a sole primary key — becomes BIGSERIAL. -/
theorem c5_composite_member_bigserial_cex :
    WfTable ⟨"pair", [⟨"a", "INTEGER", 0, none, 1⟩, ⟨"b", "INTEGER", 0, none, 2⟩]⟩ ∧
    "    b BIGSERIAL," ∈
      buildTableLines ⟨"pair", [⟨"a", "INTEGER", 0, none, 1⟩, ⟨"b", "INTEGER", 0, none, 2⟩]⟩ ∧
    "    b BIGINT," ∉
      buildTableLines ⟨"pair", [⟨"a", "INTEGER", 0, none, 1⟩, ⟨"b", "INTEGER", 0, none, 2⟩]⟩ := by
  refine ⟨by decide, by decide, by decide⟩

/-- C5 (amended): an INTEGER declared type maps to BIGSERIAL exactly when
the column's pk ordinal is nonzero (any primary-key member, sole or
composite) and to BIGINT otherwise; the mapping depends only on the
upper-cased type token (case-insensitivity); every type whose upper-case
form is none of the four known tokens falls back to TEXT; the empty
declared type maps to TEXT. -/
theorem c5_map_sqlite_to_postgres_amended :
    (∀ (s : String) (k : Nat), strUpper s = "INTEGER" →
      map_sqlite_to_postgres s k = if k = 0 then "BIGINT" else "BIGSERIAL") ∧
    (∀ (s1 s2 : String) (k : Nat), strUpper s1 = strUpper s2 →
      map_sqlite_to_postgres s1 k = map_sqlite_to_postgres s2 k) ∧
    (∀ (s : String) (k : Nat),
      strUpper s ≠ "INTEGER" → strUpper s ≠ "TEXT" → strUpper s ≠ "REAL" →
      strUpper s ≠ "DATETIME" → map_sqlite_to_postgres s k = "TEXT") ∧
    (∀ k : Nat, map_sqlite_to_postgres "" k = "TEXT") := by
  refine ⟨?_, ?_, ?_, ?_⟩
  · intro s k h
    by_cases hk : k = 0
    · subst hk
      simp [map_sqlite_to_postgres, h]
    · simp [map_sqlite_to_postgres, h, hk]
  · intro s1 s2 k h
    simp only [map_sqlite_to_postgres, h]
  · intro s k h1 h2 h3 h4
    simp [map_sqlite_to_postgres, h1, h2, h3, h4]
  · intro k
    rfl

/-- C5 witness: the amended mapping theorem applied at the lower-case
token `integer` with a composite-member ordinal. -/
theorem c5_map_sqlite_to_postgres_amended_witness :
    map_sqlite_to_postgres "integer" 2 = "BIGSERIAL" :=
  (c5_map_sqlite_to_postgres_amended.1 "integer" 2 (by decide)).trans (by decide)

/-! ### Claim C9: primary-key clause emission -/

/-- Modifying the last element maps it under `getLast?`. -/
theorem modifyLast_getLast? (f : String → String) (l : List String) :
    (modifyLast f l).getLast? = l.getLast?.map f := by
  induction l with
  | nil => rfl
  | cons x t ih =>
    cases t with
    | nil => rfl
    | cons y u =>
      show (x :: modifyLast f (y :: u)).getLast? = ((x :: y :: u).getLast?).map f
      rw [List.getLast?_cons_cons]
      cases e : modifyLast f (y :: u) with
      | nil => exact absurd e (by cases u <;> simp [modifyLast])
      | cons a b => rw [List.getLast?_cons_cons, ← e, ih]

/-- The head of what `dropWhile` leaves fails the predicate. -/
theorem dropWhile_head_not {p : Char → Bool} {l : List Char} {a : Char}
    (h : (l.dropWhile p).head? = some a) : p a = false := by
  induction l with
  | nil => cases h
  | cons c t ih =>
    rw [List.dropWhile_cons] at h
    split at h
    · exact ih h
    · rename_i hc
      simp only [List.head?_cons, Option.some.injEq] at h
      subst h
      simpa using hc

/-- After `rstrip(',')` a line never ends with a comma. -/
theorem rstrip_no_trailing_comma (s : String) :
    (rstripCommas s).data.getLast? ≠ some ',' := by
  intro h
  unfold rstripCommas at h
  rw [show (String.mk ((s.data.reverse.dropWhile (fun c => c = ',')).reverse)).data =
    (s.data.reverse.dropWhile (fun c => c = ',')).reverse from rfl] at h
  rw [List.getLast?_reverse] at h
  have := dropWhile_head_not h
  simp at this

/-- C9 counterexample: the claim's pk clause for a well-formed composite
key `[a, b]` should list `a, b`; the generated statement's constraint
line lists only `a`, because `pk_columns` keeps only the columns whose
PRAGMA pk ordinal equals 1 (the key's first column). -/
theorem c9_composite_key_cex :
    WfTable ⟨"t2", [⟨"a", "INTEGER", 0, none, 1⟩, ⟨"b", "INTEGER", 0, none, 2⟩]⟩ ∧
    "    CONSTRAINT t2_pkey PRIMARY KEY (a)" ∈
      buildTableLines ⟨"t2", [⟨"a", "INTEGER", 0, none, 1⟩, ⟨"b", "INTEGER", 0, none, 2⟩]⟩ ∧
    "    CONSTRAINT t2_pkey PRIMARY KEY (a, b)" ∉
      buildTableLines ⟨"t2", [⟨"a", "INTEGER", 0, none, 1⟩, ⟨"b", "INTEGER", 0, none, 2⟩]⟩ := by
  refine ⟨by decide, by decide, by decide⟩

/-- C9 (amended): for a well-formed table with at least one primary-key
column, the statement ends with a single named constraint
`{table}_pkey PRIMARY KEY (...)` listing exactly the column whose pk
ordinal is 1 — the key's first column (the whole key when it is simple);
for a table with no primary-key column, no constraint line is emitted and
the statement's last line before `);` carries no trailing comma. -/
theorem c9_pk_clause (t : TableData) (hwf : WfTable t) :
    ((∃ c ∈ t.columns, c.pk ≠ 0) →
      ∃ c, c ∈ t.columns ∧ c.pk = 1 ∧ pkColumns t = [c.name] ∧
        buildTableLines t =
          ("CREATE TABLE IF NOT EXISTS " ++ (t.name ++ " (")) ::
            t.columns.map buildColLine ++ [pkConstraintLine t] ++ [");"] ∧
        pkConstraintLine t =
          "    CONSTRAINT " ++ (t.name ++ ("_pkey PRIMARY KEY (" ++ (c.name ++ ")")))) ∧
    ((∀ c ∈ t.columns, c.pk = 0) →
      buildTableLines t =
        modifyLast rstripCommas
          (("CREATE TABLE IF NOT EXISTS " ++ (t.name ++ " (")) ::
            t.columns.map buildColLine) ++ [");"] ∧
      ∀ l, (modifyLast rstripCommas
          (("CREATE TABLE IF NOT EXISTS " ++ (t.name ++ " (")) ::
            t.columns.map buildColLine)).getLast? = some l →
        l.data.getLast? ≠ some ',') := by
  constructor
  · intro hex
    have hne : pkColumns t ≠ [] := (wf_haspk_iff hwf).mp hex
    obtain ⟨c, hc, hpk1, hcols⟩ := wf_pkcols_single hwf hne
    refine ⟨c, hc, hpk1, hcols, ?_, ?_⟩
    · unfold buildTableLines
      rw [if_pos hne]
    · unfold pkConstraintLine
      rw [hcols]
      rfl
  · intro hall
    have hnil : pkColumns t = [] := by
      unfold pkColumns
      rw [List.map_eq_nil_iff, List.filter_eq_nil_iff]
      intro c hc
      have := hall c hc
      simp [this]
    constructor
    · unfold buildTableLines
      rw [if_neg (fun hcon => hcon hnil)]
    · intro l hl
      rw [modifyLast_getLast?] at hl
      cases e : (("CREATE TABLE IF NOT EXISTS " ++ (t.name ++ " (")) ::
          t.columns.map buildColLine).getLast? with
      | none => rw [e] at hl; cases hl
      | some x =>
        rw [e] at hl
        simp only [Option.map_some', Option.some.injEq] at hl
        subst hl
        exact rstrip_no_trailing_comma x

/-- C9 witness: the amended theorem applied to a concrete one-key table,
read off at its primary-key side. -/
theorem c9_pk_clause_witness :
    ∃ c, c ∈ ([⟨"id", "INTEGER", 0, none, 1⟩, ⟨"v", "TEXT", 0, none, 0⟩] : List Column) ∧
      c.pk = 1 ∧ pkColumns ⟨"w", [⟨"id", "INTEGER", 0, none, 1⟩, ⟨"v", "TEXT", 0, none, 0⟩]⟩ = [c.name] ∧
      buildTableLines ⟨"w", [⟨"id", "INTEGER", 0, none, 1⟩, ⟨"v", "TEXT", 0, none, 0⟩]⟩ =
        ("CREATE TABLE IF NOT EXISTS " ++ ("w" ++ " (")) ::
          ([⟨"id", "INTEGER", 0, none, 1⟩, ⟨"v", "TEXT", 0, none, 0⟩] : List Column).map buildColLine ++
          [pkConstraintLine ⟨"w", [⟨"id", "INTEGER", 0, none, 1⟩, ⟨"v", "TEXT", 0, none, 0⟩]⟩] ++ [");"] ∧
      pkConstraintLine ⟨"w", [⟨"id", "INTEGER", 0, none, 1⟩, ⟨"v", "TEXT", 0, none, 0⟩]⟩ =
        "    CONSTRAINT " ++ ("w" ++ ("_pkey PRIMARY KEY (" ++ (c.name ++ ")"))) :=
  (c9_pk_clause ⟨"w", [⟨"id", "INTEGER", 0, none, 1⟩, ⟨"v", "TEXT", 0, none, 0⟩]⟩ (by decide)).1
    ⟨⟨"id", "INTEGER", 0, none, 1⟩, by decide, by decide⟩

/-! ### Claim C6: companies-first reordering -/

/-- With unique table names, erasing the found `companies` record keeps
exactly the other tables in their original order. -/
theorem eraseP_eq_filter_of_find? {ts : List TableData}
    (hnd : (ts.map (fun t => t.name)).Nodup) {c : TableData}
    (hf : ts.find? (fun t => t.name == "companies") = some c) :
    ts.eraseP (fun t => t.name == "companies") =
      ts.filter (fun t => !(t.name == "companies")) := by
  induction ts with
  | nil => cases hf
  | cons x l ih =>
    rw [List.map_cons, List.nodup_cons] at hnd
    obtain ⟨hx_notin, htl⟩ := hnd
    by_cases hx : x.name = "companies"
    · rw [List.eraseP_cons_of_pos (by simp [hx]), List.filter_cons_of_neg (by simp [hx])]
      symm
      rw [List.filter_eq_self]
      intro t ht
      have : t.name ≠ x.name := by
        intro e
        exact hx_notin (e ▸ List.mem_map_of_mem (fun t => t.name) ht)
      simp [hx] at this ⊢
      exact fun e => this (by rw [e])
    · rw [List.eraseP_cons_of_neg (by simp [hx]), List.filter_cons_of_pos (by simp [hx])]
      have hf' : l.find? (fun t => t.name == "companies") = some c := by
        rw [List.find?_cons_of_neg] at hf
        · exact hf
        · simp [hx]
      rw [ih htl hf']

/-- C6: when a table named `companies` is present (table names being
unique), the reordering puts it at position 0 and keeps every other table
in its original relative order, so its definition statement is the first
schema statement and its import block is the first block of the load
script; when it is absent the enumeration order is unchanged. -/
theorem c6_companies_first :
    ∀ (ts : List TableData) (outDir : String),
      (ts.map (fun t => t.name)).Nodup →
      ((∃ c ∈ ts, c.name = "companies") →
        ∃ c rest, c.name = "companies" ∧ reorderTablesData ts = c :: rest ∧
          rest = ts.filter (fun t => !(t.name == "companies")) ∧
          schemaStatements ts = buildTableSQL c :: rest.map buildTableSQL ∧
          loadScriptStatements ts outDir =
            buildImportBlock c (csvPathOf outDir c.name) ++
              rest.flatMap (fun t => buildImportBlock t (csvPathOf outDir t.name))) ∧
      ((∀ c ∈ ts, c.name ≠ "companies") → reorderTablesData ts = ts) := by
  intro ts outDir hnd
  constructor
  · rintro ⟨c0, hc0, hname0⟩
    cases hf : ts.find? (fun t => t.name == "companies") with
    | none =>
      exfalso
      have := List.find?_eq_none.mp hf c0 hc0
      simp [hname0] at this
    | some c =>
      have hcname : c.name = "companies" := by
        have := List.find?_some hf
        simpa using this
      refine ⟨c, ts.filter (fun t => !(t.name == "companies")), hcname, ?_, rfl, ?_, ?_⟩
      · unfold reorderTablesData
        rw [hf, eraseP_eq_filter_of_find? hnd hf]
      · unfold schemaStatements reorderTablesData
        rw [hf, eraseP_eq_filter_of_find? hnd hf]
        rfl
      · unfold loadScriptStatements reorderTablesData
        rw [hf, eraseP_eq_filter_of_find? hnd hf]
        rfl
  · intro hall
    unfold reorderTablesData
    rw [show ts.find? (fun t => t.name == "companies") = none from
      List.find?_eq_none.mpr (fun t ht => by simp [hall t ht])]

/-- C6 witness: the reordering theorem applied to a concrete two-table
catalog where `companies` is enumerated second. -/
theorem c6_companies_first_witness :
    ∃ c rest, TableData.name c = "companies" ∧
      reorderTablesData [⟨"financials", []⟩, ⟨"companies", []⟩] = c :: rest ∧
      rest = ([⟨"financials", []⟩, ⟨"companies", []⟩] : List TableData).filter
        (fun t => !(t.name == "companies")) ∧
      schemaStatements [⟨"financials", []⟩, ⟨"companies", []⟩] =
        buildTableSQL c :: rest.map buildTableSQL ∧
      loadScriptStatements [⟨"financials", []⟩, ⟨"companies", []⟩] "/out" =
        buildImportBlock c (csvPathOf "/out" c.name) ++
          rest.flatMap (fun t => buildImportBlock t (csvPathOf "/out" t.name)) :=
  (c6_companies_first [⟨"financials", []⟩, ⟨"companies", []⟩] "/out" (by decide)).1
    ⟨⟨"companies", []⟩, by decide, rfl⟩

/-! ### Claim C1: determinism of the artifacts -/

/-- Strings with equal character data are equal. -/
theorem strExt {s t : String} (h : s.data = t.data) : s = t := by
  cases s
  cases t
  exact congrArg String.mk h

/-- Dropping-while skips over a block that wholly satisfies the predicate. -/
theorem dropWhile_append_of_all {p : Char → Bool} {a : List Char} (b : List Char)
    (h : ∀ c ∈ a, p c = true) : (a ++ b).dropWhile p = b.dropWhile p := by
  induction a with
  | nil => rfl
  | cons x t ih =>
    rw [List.cons_append, List.dropWhile_cons, if_pos (h x (List.mem_cons_self x t))]
    exact ih fun c hc => h c (List.mem_cons_of_mem x hc)

/-- The canonical clock format contains no newline. -/
theorem newline_not_mem_fmtChars (d : PyDT) : '\n' ∉ fmtChars d :=
  not_mem_fmtChars (fun k e => (digitCh_spec k).2.2.2.2.2.2.2 e.symm)
    ⟨by decide, by decide, by decide, by decide⟩ d

/-- C1 counterexample: the schema artifact embeds `datetime.now()` in its
header comment, so two runs whose clock readings differ by one second
produce different schema bytes even on an identical (here: empty) source;
the claim's "no dependence on the wall clock" fails. -/
theorem c1_clock_dependence_cex :
    schemaText [] (String.mk (fmtChars ⟨2024, 1, 1, 0, 0, 0, 0, none⟩)) ≠
      schemaText [] (String.mk (fmtChars ⟨2024, 1, 1, 0, 0, 1, 0, none⟩)) := by
  decide

/-- C1 (amended): the load-script text is a pure function of the table
data and the output directory, hence byte-identical across runs on an
unchanged source; the schema text depends on its inputs and on the clock
reading only through the header comment — two schema artifacts over the
same tables are equal exactly when the embedded clock strings are equal,
and everything after the first (timestamp) line is clock-independent. -/
theorem c1_schema_clock_amended :
    ∀ ts : List TableData,
      (∀ n1 n2 : String, schemaText ts n1 = schemaText ts n2 ↔ n1 = n2) ∧
      (∀ d1 d2 : PyDT,
        dropFirstLine (schemaText ts (String.mk (fmtChars d1))) =
          dropFirstLine (schemaText ts (String.mk (fmtChars d2)))) := by
  intro ts
  have key : ∀ d : PyDT,
      (schemaText ts (String.mk (fmtChars d))).data.dropWhile (fun c => c ≠ '\n') =
        '\n' :: '\n' :: ((String.intercalate "\n\n" (schemaStatements ts)).data ++
          (("\n\n-- Foreign Key Constraints\n").data ++ fkConstraintLines.data)) := by
    intro d
    have h1 : (schemaText ts (String.mk (fmtChars d))).data =
        ("-- PostgreSQL Schema Generated on ").data ++ (fmtChars d ++ (("\n\n").data ++
          ((String.intercalate "\n\n" (schemaStatements ts)).data ++
            (("\n\n-- Foreign Key Constraints\n").data ++ fkConstraintLines.data)))) := by
      simp [schemaText, data_append]
    rw [h1, dropWhile_append_of_all _ (by decide), dropWhile_append_of_all _ ?hfmt]
    case hfmt =>
      intro c hc
      simp only [decide_eq_true_eq]
      exact fun e => newline_not_mem_fmtChars d (e ▸ hc)
    rw [show ("\n\n").data = ['\n', '\n'] from by decide]
    rw [List.cons_append, List.cons_append, List.dropWhile_cons, if_neg (by simp)]
    simp
  constructor
  · intro n1 n2
    constructor
    · intro h
      have hd := congrArg String.data h
      simp only [schemaText, data_append, List.append_assoc] at hd
      have hd2 := List.append_cancel_left hd
      exact strExt (List.append_cancel_right hd2)
    · intro h
      rw [h]
  · intro d1 d2
    unfold dropFirstLine
    rw [key d1, key d2]
